import Mathlib

/-!
Shallow embedding of the `terraform-provider-aws` fragments under scrutiny:

* `internal/service/sagemaker/workforce.go` — the `aws_sagemaker_workforce`
  resource: schema, CRUD entry points and the expand/flatten field mappers.
* `internal/service/s3/tags.go` — the S3 bucket/object tag helpers.
* the `aws_s3_object` data source (`dataSourceObjectRead` and
  `isContentTypeAllowed`).

Go pointers (`*string`, `*bool`, ...) are embedded as `Option`; Go slices and
`*schema.Set` values as `List`; AWS API outcomes as explicit parameters of the
embedded CRUD functions (either `Except ApiError _` for calls returning a
value, or `Option ApiError` for calls whose output is discarded).  Terraform
diagnostics are embedded as a `List Diag` result, and the attribute store
written through `d.Set`/`d.SetId` as an explicit `DSState` record threaded in
source order, so that early returns leave exactly the writes made so far.
-/

/-- An AWS API error, as seen through `awserr`/`smithy` errors: a code and a
message. -/
structure ApiError where
  code : String
  message : String
deriving DecidableEq, Repr

/-- A Terraform diagnostic; the embedded CRUD functions only ever append
error-severity diagnostics, so the summary string is all that is kept. -/
structure Diag where
  summary : String
deriving DecidableEq, Repr

/-- `aws.StringValue`: dereference a `*string`, with `""` for `nil`. -/
def stringValue (o : Option String) : String := o.getD ""

/-- `aws.BoolValue`: dereference a `*bool`, with `false` for `nil`. -/
def boolValue (o : Option Bool) : Bool := o.getD false

/-- Does `sub` occur as a contiguous run inside `l`?  (`strings.Contains` on
the underlying character lists.) -/
def containsSub (sub : List Char) : List Char → Bool
  | [] => sub.isEmpty
  | c :: cs => sub.isPrefixOf (c :: cs) || containsSub sub cs

/-- `tfawserr.ErrMessageContains`: true iff the error is non-nil, has the
given code, and its message contains `sub` as a substring. -/
def errMessageContains (err : Option ApiError) (code sub : String) : Bool :=
  match err with
  | none => false
  | some e => e.code == code && containsSub sub.data e.message.data

/-- `tfawserr.ErrCodeEquals` with two candidate codes: true iff the error is
non-nil and its code equals either. -/
def errCodeEqualsTwo (err : Option ApiError) (code1 code2 : String) : Bool :=
  match err with
  | none => false
  | some e => e.code == code1 || e.code == code2

/-! ### A small regular-expression engine

`isContentTypeAllowed` is a loop over nine Go (RE2) regular expressions.  To
keep the embedding at the level of the source — pattern syntax rather than a
hand-translated predicate — the patterns are written as abstract syntax trees
and matched with Brzozowski derivatives.  RE2 notes relevant here: without
flags, `^` matches only at the start of the text, `$` only at its end, and
`.` matches any character except `\n`. -/

/-- Regular-expression abstract syntax.  `anyChar` is RE2 `.` (any character
except a newline). -/
inductive Regex where
  | emp : Regex
  | eps : Regex
  | chr : Char → Regex
  | anyChar : Regex
  | alt : Regex → Regex → Regex
  | cat : Regex → Regex → Regex
  | star : Regex → Regex
deriving DecidableEq, Repr

/-- RE2 `+`: one or more repetitions. -/
def Regex.plus (r : Regex) : Regex := .cat r (.star r)

/-- Does the expression accept the empty string? -/
def nullable : Regex → Bool
  | .emp => false
  | .eps => true
  | .chr _ => false
  | .anyChar => false
  | .alt a b => nullable a || nullable b
  | .cat a b => nullable a && nullable b
  | .star _ => true

/-- Brzozowski derivative of an expression by one character. -/
def rderiv : Regex → Char → Regex
  | .emp, _ => .emp
  | .eps, _ => .emp
  | .chr c, x => if x = c then .eps else .emp
  | .anyChar, x => if x = '\n' then .emp else .eps
  | .alt a b, x => .alt (rderiv a x) (rderiv b x)
  | .cat a b, x =>
      if nullable a then .alt (.cat (rderiv a x) b) (rderiv b x)
      else .cat (rderiv a x) b
  | .star a, x => .cat (rderiv a x) (.star a)

/-- Does the expression match the whole character list? -/
def matchList (r : Regex) : List Char → Bool
  | [] => nullable r
  | c :: cs => matchList (rderiv r c) cs

/-- Does the expression match some (possibly empty) leading segment of the
character list?  This is Go `MatchString` for a pattern anchored with `^` at
the start but not with `$` at the end. -/
def matchPrefixList (r : Regex) : List Char → Bool
  | [] => nullable r
  | c :: cs => nullable r || matchPrefixList (rderiv r c) cs

/-- The literal characters `p`, then the expression `r`. -/
def litThen : List Char → Regex → Regex
  | [], r => r
  | c :: p, r => .cat (.chr c) (litThen p r)

/-- A compiled Go pattern: all nine patterns in the source start with `^`;
`endAnchored` records whether the pattern also ends with `$`. -/
structure GoPattern where
  re : Regex
  endAnchored : Bool

/-- Go `MatchString` for a `^`-anchored pattern: a full-text match when the
pattern is also `$`-anchored, otherwise a match of some leading segment. -/
def goMatchString (p : GoPattern) (s : String) : Bool :=
  if p.endAnchored then matchList p.re s.data else matchPrefixList p.re s.data

/-- The nine `allowedContentTypes` patterns of the data source, in source
order.  The first eight are `^literal$`; the last is `^text/.+`. -/
def allowedContentTypes : List GoPattern :=
  [ ⟨litThen "application/atom+xml".data .eps, true⟩,
    ⟨litThen "application/json".data .eps, true⟩,
    ⟨litThen "application/ld+json".data .eps, true⟩,
    ⟨litThen "application/x-csh".data .eps, true⟩,
    ⟨litThen "application/x-httpd-php".data .eps, true⟩,
    ⟨litThen "application/x-sh".data .eps, true⟩,
    ⟨litThen "application/xhtml+xml".data .eps, true⟩,
    ⟨litThen "application/xml".data .eps, true⟩,
    ⟨litThen "text/".data (Regex.plus .anyChar), false⟩ ]

/-- `isContentTypeAllowed`: `false` for a nil content type, otherwise true
iff any of the nine patterns matches. -/
def isContentTypeAllowed (contentType : Option String) : Bool :=
  match contentType with
  | none => false
  | some s => allowedContentTypes.any (fun r => goMatchString r s)

/-- The spec's enumeration of the exact (fully anchored) allowed MIME
types, for comparison with the pattern list compiled above. -/
def allowedExactContentTypes : List String :=
  [ "application/atom+xml", "application/json", "application/ld+json",
    "application/x-csh", "application/x-httpd-php", "application/x-sh",
    "application/xhtml+xml", "application/xml" ]

/-! ### SageMaker Workforce: attribute maps, API structs, expand/flatten

The Terraform attribute value of each `MaxItems: 1` block is a
`[]interface{}` whose single element is either `nil` or the block's field
map; it is embedded as `List (Option _)` over a structure holding the
block's fields.  The AWS SDK structs keep their field names (pointers as
`Option`, `[]*string` as `List String`). -/

/-- The `cognito_config` block's field map. -/
structure CognitoMap where
  client_id : String
  user_pool : String
deriving DecidableEq, Repr

/-- `sagemaker.CognitoConfig`. -/
structure CognitoConfig where
  clientId : Option String
  userPool : Option String
deriving DecidableEq, Repr

/-- The `oidc_config` block's field map. -/
structure OidcMap where
  authorization_endpoint : String
  client_id : String
  client_secret : String
  issuer : String
  jwks_uri : String
  logout_endpoint : String
  token_endpoint : String
  user_info_endpoint : String
deriving DecidableEq, Repr

/-- `sagemaker.OidcConfig` (the request struct; carries the client secret). -/
structure OidcConfig where
  authorizationEndpoint : Option String
  clientId : Option String
  clientSecret : Option String
  issuer : Option String
  jwksUri : Option String
  logoutEndpoint : Option String
  tokenEndpoint : Option String
  userInfoEndpoint : Option String
deriving DecidableEq, Repr

/-- `sagemaker.OidcConfigForResponse`: the response struct; every field of
`OidcConfig` except the client secret, which AWS never returns. -/
structure OidcConfigForResponse where
  authorizationEndpoint : Option String
  clientId : Option String
  issuer : Option String
  jwksUri : Option String
  logoutEndpoint : Option String
  tokenEndpoint : Option String
  userInfoEndpoint : Option String
deriving DecidableEq, Repr

/-- The `source_ip_config` block's field map; the `cidrs` set is kept as its
element list. -/
structure SourceIpMap where
  cidrs : List String
deriving DecidableEq, Repr

/-- `sagemaker.SourceIpConfig`. -/
structure SourceIpConfig where
  cidrs : List String
deriving DecidableEq, Repr

/-- The `workforce_vpc_config` block's field map.  `vpc_endpoint_id` is a
`Computed` attribute, so it is part of the stored map even though the expand
function never reads it. -/
structure VpcMap where
  security_group_ids : List String
  subnets : List String
  vpc_endpoint_id : String
  vpc_id : String
deriving DecidableEq, Repr

/-- `sagemaker.WorkforceVpcConfigRequest`. -/
structure WorkforceVpcConfigRequest where
  securityGroupIds : List String
  subnets : List String
  vpcId : Option String
deriving DecidableEq, Repr

/-- `sagemaker.WorkforceVpcConfigResponse`: the request's fields plus the
AWS-assigned `VpcEndpointId`. -/
structure WorkforceVpcConfigResponse where
  securityGroupIds : List String
  subnets : List String
  vpcEndpointId : Option String
  vpcId : Option String
deriving DecidableEq, Repr

/-- `expandWorkforceSourceIPConfig`: nil for an empty list or a nil first
element, otherwise the struct built from the first element's fields. -/
def expandWorkforceSourceIPConfig : List (Option SourceIpMap) → Option SourceIpConfig
  | [] => none
  | none :: _ => none
  | some m :: _ => some { cidrs := m.cidrs }

/-- `flattenWorkforceSourceIPConfig`: an empty list for nil, otherwise a
one-element list holding the field map. -/
def flattenWorkforceSourceIPConfig : Option SourceIpConfig → List SourceIpMap
  | none => []
  | some config => [{ cidrs := config.cidrs }]

/-- `expandWorkforceCognitoConfig`. -/
def expandWorkforceCognitoConfig : List (Option CognitoMap) → Option CognitoConfig
  | [] => none
  | none :: _ => none
  | some m :: _ => some { clientId := some m.client_id, userPool := some m.user_pool }

/-- `flattenWorkforceCognitoConfig`. -/
def flattenWorkforceCognitoConfig : Option CognitoConfig → List CognitoMap
  | none => []
  | some config =>
    [{ client_id := stringValue config.clientId,
       user_pool := stringValue config.userPool }]

/-- `expandWorkforceOIDCConfig`. -/
def expandWorkforceOIDCConfig : List (Option OidcMap) → Option OidcConfig
  | [] => none
  | none :: _ => none
  | some m :: _ =>
    some { authorizationEndpoint := some m.authorization_endpoint,
           clientId := some m.client_id,
           clientSecret := some m.client_secret,
           issuer := some m.issuer,
           jwksUri := some m.jwks_uri,
           logoutEndpoint := some m.logout_endpoint,
           tokenEndpoint := some m.token_endpoint,
           userInfoEndpoint := some m.user_info_endpoint }

/-- `flattenWorkforceOIDCConfig`: the `client_secret` entry is the
`clientSecret` argument (the prior-state value read by
`resourceWorkforceRead`), not a field of the response. -/
def flattenWorkforceOIDCConfig (config : Option OidcConfigForResponse)
    (clientSecret : String) : List OidcMap :=
  match config with
  | none => []
  | some c =>
    [{ authorization_endpoint := stringValue c.authorizationEndpoint,
       client_id := stringValue c.clientId,
       client_secret := clientSecret,
       issuer := stringValue c.issuer,
       jwks_uri := stringValue c.jwksUri,
       logout_endpoint := stringValue c.logoutEndpoint,
       token_endpoint := stringValue c.tokenEndpoint,
       user_info_endpoint := stringValue c.userInfoEndpoint }]

/-- The zero `WorkforceVpcConfigRequest` (`&sagemaker.WorkforceVpcConfigRequest{}`):
nil slices and a nil `VpcId`. -/
def emptyWorkforceVpcConfigRequest : WorkforceVpcConfigRequest :=
  { securityGroupIds := [], subnets := [], vpcId := none }

/-- `expandWorkforceVPCConfig`: unlike the other three expanders, an empty
list or a nil first element yields a non-nil zero request. -/
def expandWorkforceVPCConfig : List (Option VpcMap) → Option WorkforceVpcConfigRequest
  | [] => some emptyWorkforceVpcConfigRequest
  | none :: _ => some emptyWorkforceVpcConfigRequest
  | some m :: _ =>
    some { securityGroupIds := m.security_group_ids,
           subnets := m.subnets,
           vpcId := some m.vpc_id }

/-- `flattenWorkforceVPCConfig`. -/
def flattenWorkforceVPCConfig : Option WorkforceVpcConfigResponse → List VpcMap
  | none => []
  | some config =>
    [{ security_group_ids := config.securityGroupIds,
       subnets := config.subnets,
       vpc_endpoint_id := stringValue config.vpcEndpointId,
       vpc_id := stringValue config.vpcId }]

/-- The `DescribeWorkforce` response body corresponding to a create/update
request whose OIDC config was `req`: AWS echoes every request field except
the client secret, which `OidcConfigForResponse` does not carry. -/
def oidcResponseOfRequest (req : OidcConfig) : OidcConfigForResponse :=
  { authorizationEndpoint := req.authorizationEndpoint,
    clientId := req.clientId,
    issuer := req.issuer,
    jwksUri := req.jwksUri,
    logoutEndpoint := req.logoutEndpoint,
    tokenEndpoint := req.tokenEndpoint,
    userInfoEndpoint := req.userInfoEndpoint }

/-- The `DescribeWorkforce` response body corresponding to a VPC config
request `req`: AWS echoes the request's fields and additionally reports the
AWS-assigned `VpcEndpointId`, which is not part of any request. -/
def vpcResponseOfRequest (req : WorkforceVpcConfigRequest)
    (endpointId : Option String) : WorkforceVpcConfigResponse :=
  { securityGroupIds := req.securityGroupIds,
    subnets := req.subnets,
    vpcEndpointId := endpointId,
    vpcId := req.vpcId }

/-! ### SageMaker Workforce: schema and CRUD entry points -/

/-- The kind of a top-level schema attribute. -/
inductive SchemaType where
  | string : SchemaType
  | list : SchemaType
deriving DecidableEq, Repr

/-- A top-level attribute of the Workforce schema: the properties declared
in `ResourceWorkforce` (nested element schemas and validators live in the
external framework and are not modelled). -/
structure AttrSchema where
  typ : SchemaType
  required : Bool
  optional : Bool
  computed : Bool
  forceNew : Bool
  maxItems : Option Nat
  exactlyOneOf : List String
deriving DecidableEq, Repr

/-- The top-level schema of `ResourceWorkforce`, field for field. -/
def workforceSchema : List (String × AttrSchema) :=
  [ ("arn",
     { typ := .string, required := false, optional := false, computed := true,
       forceNew := false, maxItems := none, exactlyOneOf := [] }),
    ("cognito_config",
     { typ := .list, required := false, optional := true, computed := false,
       forceNew := true, maxItems := some 1,
       exactlyOneOf := ["oidc_config", "cognito_config"] }),
    ("oidc_config",
     { typ := .list, required := false, optional := true, computed := false,
       forceNew := false, maxItems := some 1,
       exactlyOneOf := ["oidc_config", "cognito_config"] }),
    ("source_ip_config",
     { typ := .list, required := false, optional := true, computed := true,
       forceNew := false, maxItems := some 1, exactlyOneOf := [] }),
    ("subdomain",
     { typ := .string, required := false, optional := false, computed := true,
       forceNew := false, maxItems := none, exactlyOneOf := [] }),
    ("workforce_name",
     { typ := .string, required := true, optional := false, computed := false,
       forceNew := true, maxItems := none, exactlyOneOf := [] }),
    ("workforce_vpc_config",
     { typ := .list, required := false, optional := true, computed := false,
       forceNew := false, maxItems := some 1, exactlyOneOf := [] }) ]

/-- `sagemaker.CreateWorkforceInput`. -/
structure CreateWorkforceInput where
  workforceName : String
  cognitoConfig : Option CognitoConfig
  oidcConfig : Option OidcConfig
  sourceIpConfig : Option SourceIpConfig
  workforceVpcConfig : Option WorkforceVpcConfigRequest
deriving DecidableEq, Repr

/-- The inputs of one `resourceWorkforceCreate` run: the stored attribute
values read through `d.Get`/`d.GetOk`, and the outcomes of the AWS calls it
makes (`CreateWorkforce`, the active waiter, and the trailing
`resourceWorkforceRead`). -/
structure WorkforceCreateEnv where
  workforceName : String
  cognitoAttr : List (Option CognitoMap)
  oidcAttr : List (Option OidcMap)
  sourceIpAttr : List (Option SourceIpMap)
  vpcAttr : List (Option VpcMap)
  createResult : Option ApiError
  waitResult : Option ApiError
  readDiags : List Diag

/-- The `CreateWorkforceInput` built by `resourceWorkforceCreate`: each
optional block is expanded only when `d.GetOk` reports it present (a list
attribute is "ok" iff it is non-empty). -/
def buildCreateWorkforceInput (env : WorkforceCreateEnv) : CreateWorkforceInput :=
  { workforceName := env.workforceName,
    cognitoConfig :=
      if env.cognitoAttr.isEmpty then none
      else expandWorkforceCognitoConfig env.cognitoAttr,
    oidcConfig :=
      if env.oidcAttr.isEmpty then none
      else expandWorkforceOIDCConfig env.oidcAttr,
    sourceIpConfig :=
      if env.sourceIpAttr.isEmpty then none
      else expandWorkforceSourceIPConfig env.sourceIpAttr,
    workforceVpcConfig :=
      if env.vpcAttr.isEmpty then none
      else expandWorkforceVPCConfig env.vpcAttr }

/-- `resourceWorkforceCreate`: build the input, call `CreateWorkforce`
(diagnostic on error), `d.SetId(name)`, wait for the workforce to become
active (diagnostic on error), then run `resourceWorkforceRead`.  The result
is the input sent, the id set (if any), and the diagnostics. -/
def resourceWorkforceCreate (env : WorkforceCreateEnv) :
    CreateWorkforceInput × Option String × List Diag :=
  let input := buildCreateWorkforceInput env
  match env.createResult with
  | some e =>
    (input, none,
     [⟨"creating SageMaker Workforce (" ++ env.workforceName ++ "): " ++ e.message⟩])
  | none =>
    match env.waitResult with
    | some e =>
      (input, some env.workforceName,
       [⟨"waiting for SageMaker Workforce (" ++ env.workforceName ++ ") create: "
         ++ e.message⟩])
    | none => (input, some env.workforceName, env.readDiags)

/-- The inputs of one `resourceWorkforceDelete` run: the id, and the
outcomes of `DeleteWorkforce` and of the deleted waiter. -/
structure WorkforceDeleteEnv where
  id : String
  deleteResult : Option ApiError
  waitResult : Option ApiError

/-- `resourceWorkforceDelete`: a `ValidationException` whose message
contains "No workforce" is swallowed (success); any other delete error, or
a waiter error, becomes a diagnostic. -/
def resourceWorkforceDelete (env : WorkforceDeleteEnv) : List Diag :=
  if errMessageContains env.deleteResult "ValidationException" "No workforce" then []
  else
    match env.deleteResult with
    | some e =>
      [⟨"deleting SageMaker Workforce (" ++ env.id ++ "): " ++ e.message⟩]
    | none =>
      match env.waitResult with
      | some e =>
        [⟨"waiting for SageMaker Workforce (" ++ env.id ++ ") delete: " ++ e.message⟩]
      | none => []

/-! ### S3 tag helpers (`internal/service/s3/tags.go`) -/

/-- A `tftags.KeyValueTags` value, embedded as an association list of
key/value pairs. -/
abbrev Tags := List (String × String)

/-- Does the tag set hold the key? -/
def containsKey (tags : Tags) (k : String) : Bool :=
  tags.any (fun q => q.1 == k)

/-- Modelled from the spec: `tftags.KeyValueTags.Ignore` (the tag helpers
"list/merge/diff three sets"; `internal/tags` is outside the source set):
drop every entry whose key appears in `other`. -/
def ignoreTags (tags other : Tags) : Tags :=
  tags.filter (fun p => ! containsKey other p.1)

/-- Modelled from the spec: `tftags.KeyValueTags.Merge` (`internal/tags` is
outside the source set): the union of the two sets, entries of `other`
winning on a shared key. -/
def mergeTags (tags other : Tags) : Tags :=
  tags.filter (fun p => ! containsKey other p.1) ++ other

/-- The error code strings compared by the tag listers.  Modelled from the
spec and the source comment: the S3 API reference names the error
`NoSuchTagSetError`, existing logic used `NoSuchTagSet`, and the helpers
accept both (the constants live in `internal/service/s3/errors.go`, outside
the source set). -/
def errCodeNoSuchTagSet : String := "NoSuchTagSet"

/-- See `errCodeNoSuchTagSet`. -/
def errCodeNoSuchTagSetError : String := "NoSuchTagSetError"

/-- `BucketListTags`, as a function of the `GetBucketTagging` outcome: a
`NoSuchTagSet`/`NoSuchTagSetError` error yields the empty tag mapping and
no error (`tftags.New(ctx, nil)` is an empty, non-nil map); any other error
yields the empty mapping together with that error; success yields the
returned tag set. -/
def BucketListTags (apiResult : Except ApiError Tags) : Tags × Option ApiError :=
  match apiResult with
  | .error e =>
    if e.code == errCodeNoSuchTagSet || e.code == errCodeNoSuchTagSetError then
      ([], none)
    else ([], some e)
  | .ok tagSet => (tagSet, none)

/-- `ObjectListTags` (AWS SDK for Go v2), as a function of the final
outcome of the retried `GetObjectTagging` call; the error handling is the
same as `BucketListTags`. -/
def ObjectListTags (apiResult : Except ApiError Tags) : Tags × Option ApiError :=
  match apiResult with
  | .error e =>
    if e.code == errCodeNoSuchTagSet || e.code == errCodeNoSuchTagSetError then
      ([], none)
    else ([], some e)
  | .ok tagSet => (tagSet, none)

/-- `ObjectListTagsV1` (AWS SDK for Go v1); same logic again. -/
def ObjectListTagsV1 (apiResult : Except ApiError Tags) : Tags × Option ApiError :=
  match apiResult with
  | .error e =>
    if e.code == errCodeNoSuchTagSet || e.code == errCodeNoSuchTagSetError then
      ([], none)
    else ([], some e)
  | .ok tagSet => (tagSet, none)

/-- The mutating S3 tagging calls an update helper can issue. -/
inductive TagMutation where
  | putTags (tags : Tags) : TagMutation
  | deleteTags : TagMutation
deriving DecidableEq, Repr

/-- `BucketUpdateTags`, returning the list of mutating calls issued and
whether the run failed while listing.  After listing the resource's
current tags, `ignoredTags` is everything the resource holds outside the
old and new sets; a single `PutBucketTagging` is issued when the new and
ignored sets together are non-empty, a single `DeleteBucketTagging` when
they are empty but the old set is not, and nothing otherwise. -/
def BucketUpdateTags (apiListResult : Except ApiError Tags) (oldTags newTags : Tags) :
    List TagMutation × Option ApiError :=
  match BucketListTags apiListResult with
  | (_, some e) => ([], some e)
  | (allTags, none) =>
    let ignoredTags := ignoreTags (ignoreTags allTags oldTags) newTags
    if 0 < newTags.length + ignoredTags.length then
      ([.putTags (mergeTags newTags ignoredTags)], none)
    else if 0 < oldTags.length ∧ ignoredTags.length = 0 then
      ([.deleteTags], none)
    else ([], none)

/-- `ObjectUpdateTags`: identical logic to `BucketUpdateTags`, against the
object tagging calls. -/
def ObjectUpdateTags (apiListResult : Except ApiError Tags) (oldTags newTags : Tags) :
    List TagMutation × Option ApiError :=
  match ObjectListTagsV1 apiListResult with
  | (_, some e) => ([], some e)
  | (allTags, none) =>
    let ignoredTags := ignoreTags (ignoreTags allTags oldTags) newTags
    if 0 < newTags.length + ignoredTags.length then
      ([.putTags (mergeTags newTags ignoredTags)], none)
    else if 0 < oldTags.length ∧ ignoredTags.length = 0 then
      ([.deleteTags], none)
    else ([], none)

/-! ### The `aws_s3_object` data source -/

/-- A value stored through `d.Set`. -/
inductive AttrVal where
  | str (s : String) : AttrVal
  | boolV (b : Bool) : AttrVal
  | intV (n : Int) : AttrVal
  | mapV (m : List (String × String)) : AttrVal
deriving DecidableEq, Repr

/-- The data source's view of Terraform state during one read: the resource
id (if set), the attributes written so far in write order, and the AWS
calls issued so far. -/
structure DSState where
  id : Option String
  attrs : List (String × AttrVal)
  calls : List String
deriving DecidableEq, Repr

/-- The state before any write. -/
def DSState.initial : DSState := { id := none, attrs := [], calls := [] }

/-- `d.Set`. -/
def DSState.setAttr (st : DSState) (k : String) (v : AttrVal) : DSState :=
  { st with attrs := st.attrs ++ [(k, v)] }

/-- Record an AWS call. -/
def DSState.addCall (st : DSState) (c : String) : DSState :=
  { st with calls := st.calls ++ [c] }

/-- The first value stored under a key, if any. -/
def lookupAttr (st : DSState) (k : String) : Option AttrVal :=
  List.lookup k st.attrs

/-- `strings.Trim(s, cutset)` for a one-character cutset: drop every leading
and trailing occurrence of `c`. -/
def trimChar (c : Char) (s : String) : String :=
  ⟨((s.data.dropWhile (fun x => x == c)).reverse.dropWhile (fun x => x == c)).reverse⟩

/-- `s3.HeadObjectOutput`, with the two time-valued fields
(`LastModified`, `ObjectLockRetainUntilDate`) carried as their already
formatted renderings, since time formatting is done by external libraries. -/
structure HeadObjectOutput where
  bucketKeyEnabled : Option Bool
  cacheControl : Option String
  contentDisposition : Option String
  contentEncoding : Option String
  contentLanguage : Option String
  contentLength : Option Int
  contentType : Option String
  deleteMarker : Option Bool
  eTag : Option String
  expiration : Option String
  expires : Option String
  lastModified : Option String
  metadata : List (String × String)
  objectLockLegalHoldStatus : Option String
  objectLockMode : Option String
  objectLockRetainUntilDate : String
  serverSideEncryption : Option String
  sseKmsKeyId : Option String
  storageClass : Option String
  versionId : Option String
  websiteRedirectLocation : Option String
deriving DecidableEq, Repr

/-- The inputs of one `dataSourceObjectRead` run: the configured
attributes (`""` for an unset `range`/`version_id`, matching `d.GetOk`,
which reports a string attribute absent when it is empty) and the outcomes
of the three AWS calls it can make. -/
structure ObjectReadEnv where
  bucket : String
  key : String
  rangeAttr : String
  versionIdAttr : String
  headResult : Except ApiError HeadObjectOutput
  getObjectResult : Except ApiError String
  objectTaggingResult : Except ApiError Tags
  ignoreTagKeys : List String

/-- The composite id built by `dataSourceObjectRead`:
`bucket + "/" + key`, with `"@" + version` appended when a `version_id` is
configured. -/
def objectUniqueId (env : ObjectReadEnv) : String :=
  let base := env.bucket ++ "/" ++ env.key
  if env.versionIdAttr != "" then base ++ "@" ++ env.versionIdAttr else base

/-- Modelled from the spec: `tftags` ignore filtering applied before
storing tags ("externally-ignored" tags; `internal/tags` is outside the
source set).  `IgnoreAWS` drops keys under the `aws:` prefix;
`IgnoreConfig` drops the provider-configured keys. -/
def applyIgnoreConfig (ignoreKeys : List String) (tags : Tags) : Tags :=
  (tags.filter (fun p => ! "aws:".isPrefixOf p.1)).filter
    (fun p => ! ignoreKeys.contains p.1)

/-- The tail of `dataSourceObjectRead`: list the object's tags through
`ObjectListTagsV1` (diagnostic on error) and store the filtered mapping. -/
def dataSourceObjectReadTags (env : ObjectReadEnv) (st : DSState) :
    DSState × List Diag :=
  let st := st.addCall "GetObjectTagging"
  match ObjectListTagsV1 env.objectTaggingResult with
  | (_, some e) =>
    (st, [⟨"listing tags for S3 Bucket (" ++ env.bucket ++ ") Object (" ++ env.key
          ++ "): " ++ e.message⟩])
  | (tags, none) =>
    (st.setAttr "tags" (.mapV (applyIgnoreConfig env.ignoreTagKeys tags)), [])

/-- The attribute writes mirroring the head response, in the source's
`d.Set` order (`storage_class` written last, defaulting to `"STANDARD"`
when the response omits the field). -/
def headObjectAttrs (out : HeadObjectOutput) : List (String × AttrVal) :=
  [ ("bucket_key_enabled", .boolV (boolValue out.bucketKeyEnabled)),
    ("cache_control", .str (stringValue out.cacheControl)),
    ("content_disposition", .str (stringValue out.contentDisposition)),
    ("content_encoding", .str (stringValue out.contentEncoding)),
    ("content_language", .str (stringValue out.contentLanguage)),
    ("content_length", .intV (out.contentLength.getD 0)),
    ("content_type", .str (stringValue out.contentType)),
    ("etag", .str (trimChar '"' (stringValue out.eTag))),
    ("expiration", .str (stringValue out.expiration)),
    ("expires", .str (stringValue out.expires)),
    ("last_modified",
     .str (match out.lastModified with | some t => t | none => "")),
    ("metadata", .mapV out.metadata),
    ("object_lock_legal_hold_status", .str (stringValue out.objectLockLegalHoldStatus)),
    ("object_lock_mode", .str (stringValue out.objectLockMode)),
    ("object_lock_retain_until_date", .str out.objectLockRetainUntilDate),
    ("server_side_encryption", .str (stringValue out.serverSideEncryption)),
    ("sse_kms_key_id", .str (stringValue out.sseKmsKeyId)),
    ("version_id", .str (stringValue out.versionId)),
    ("website_redirect_location", .str (stringValue out.websiteRedirectLocation)),
    ("storage_class",
     .str (match out.storageClass with | none => "STANDARD" | some sc => sc)) ]

/-- `dataSourceObjectRead`: head the object (diagnostic on error), fail if
the response is a delete marker, set the id and the attribute mirror of the
head response, fetch the body only for an allow-listed content type
(diagnostic on fetch/read error), then list and store tags. -/
def dataSourceObjectRead (env : ObjectReadEnv) : DSState × List Diag :=
  let st0 := DSState.initial.addCall "HeadObject"
  match env.headResult with
  | .error e =>
    (st0, [⟨"getting S3 Bucket (" ++ env.bucket ++ ") Object (" ++ env.key ++ "): "
           ++ e.message⟩])
  | .ok out =>
    if boolValue out.deleteMarker then
      (st0, [⟨"Requested S3 object " ++ env.bucket ++ env.key ++ " has been deleted"⟩])
    else
      let st : DSState :=
        { id := some (objectUniqueId env),
          attrs := headObjectAttrs out,
          calls := st0.calls }
      if isContentTypeAllowed out.contentType then
        let st2 := st.addCall "GetObject"
        match env.getObjectResult with
        | .error e => (st2, [⟨"Failed getting S3 object: " ++ e.message⟩])
        | .ok body =>
          dataSourceObjectReadTags env (st2.setAttr "body" (.str body))
      else
        dataSourceObjectReadTags env st

/-- A head response with every optional field absent, an empty metadata
map and an empty retain-until date: the base value for concrete test
responses. -/
def emptyHeadOutput : HeadObjectOutput :=
  { bucketKeyEnabled := none, cacheControl := none, contentDisposition := none,
    contentEncoding := none, contentLanguage := none, contentLength := none,
    contentType := none, deleteMarker := none, eTag := none, expiration := none,
    expires := none, lastModified := none, metadata := [],
    objectLockLegalHoldStatus := none, objectLockMode := none,
    objectLockRetainUntilDate := "", serverSideEncryption := none,
    sseKmsKeyId := none, storageClass := none, versionId := none,
    websiteRedirectLocation := none }

/-! ## Theorems

Supporting lemmas first (matcher algebra), then one theorem per claim, each
with its witness or counterexample where required. -/

theorem matchList_emp : ∀ cs : List Char, matchList .emp cs = false
  | [] => rfl
  | _ :: cs => matchList_emp cs

theorem matchList_alt : ∀ (cs : List Char) (a b : Regex),
    matchList (.alt a b) cs = (matchList a cs || matchList b cs)
  | [], _, _ => rfl
  | c :: cs, a, b => matchList_alt cs (rderiv a c) (rderiv b c)

theorem matchList_catEmp : ∀ (cs : List Char) (b : Regex),
    matchList (.cat .emp b) cs = false
  | [], _ => rfl
  | _ :: cs, b => matchList_catEmp cs b

theorem matchList_catEps : ∀ (cs : List Char) (b : Regex),
    matchList (.cat .eps b) cs = matchList b cs
  | [], _ => rfl
  | c :: cs, b => by
    have h : matchList (.cat .eps b) (c :: cs) =
        matchList (.alt (.cat .emp b) (rderiv b c)) cs := rfl
    rw [h, matchList_alt, matchList_catEmp, Bool.false_or]
    rfl

theorem matchList_eps : ∀ cs : List Char, matchList .eps cs = true ↔ cs = []
  | [] => by simp [matchList, nullable]
  | c :: cs => by
    have h : matchList .eps (c :: cs) = matchList .emp cs := rfl
    simp [h, matchList_emp]

theorem matchList_litThen : ∀ (p : List Char) (r : Regex) (cs : List Char),
    matchList (litThen p r) cs = true ↔ ∃ cs2, cs = p ++ cs2 ∧ matchList r cs2 = true
  | [], r, cs => by simp [litThen]
  | c :: p, r, [] => by
    constructor
    · intro h
      exact absurd h (by simp [matchList, litThen, nullable])
    · rintro ⟨cs2, h, -⟩
      exact absurd h (by simp)
  | c :: p, r, x :: cs => by
    by_cases hx : x = c
    · subst hx
      have h : matchList (litThen (x :: p) r) (x :: cs) =
          matchList (.cat .eps (litThen p r)) cs := by
        show matchList (.cat (if x = x then .eps else .emp) (litThen p r)) cs =
          matchList (.cat .eps (litThen p r)) cs
        rw [if_pos rfl]
      rw [h, matchList_catEps, matchList_litThen p r cs]
      constructor
      · rintro ⟨cs2, rfl, hm⟩
        exact ⟨cs2, rfl, hm⟩
      · rintro ⟨cs2, hcs, hm⟩
        simp only [List.cons_append, List.cons.injEq] at hcs
        exact ⟨cs2, hcs.2, hm⟩
    · have h : matchList (litThen (c :: p) r) (x :: cs) =
          matchList (.cat .emp (litThen p r)) cs := by
        show matchList (.cat (if x = c then .eps else .emp) (litThen p r)) cs =
          matchList (.cat .emp (litThen p r)) cs
        rw [if_neg hx]
      rw [h, matchList_catEmp]
      constructor
      · intro hf
        exact absurd hf (by simp)
      · rintro ⟨cs2, hcs, -⟩
        simp only [List.cons_append, List.cons.injEq] at hcs
        exact absurd hcs.1 hx

theorem matchPrefixList_alt : ∀ (cs : List Char) (a b : Regex),
    matchPrefixList (.alt a b) cs = (matchPrefixList a cs || matchPrefixList b cs)
  | [], _, _ => rfl
  | c :: cs, a, b => by
    have h : matchPrefixList (.alt a b) (c :: cs) =
        ((nullable a || nullable b) ||
          matchPrefixList (.alt (rderiv a c) (rderiv b c)) cs) := rfl
    rw [h, matchPrefixList_alt cs (rderiv a c) (rderiv b c)]
    show _ = ((nullable a || matchPrefixList (rderiv a c) cs) ||
      (nullable b || matchPrefixList (rderiv b c) cs))
    cases nullable a <;> cases nullable b <;> simp

theorem matchPrefixList_catEmp : ∀ (cs : List Char) (b : Regex),
    matchPrefixList (.cat .emp b) cs = false
  | [], _ => rfl
  | _ :: cs, b => matchPrefixList_catEmp cs b

theorem matchPrefixList_catEps : ∀ (cs : List Char) (b : Regex),
    matchPrefixList (.cat .eps b) cs = matchPrefixList b cs
  | [], _ => rfl
  | c :: cs, b => by
    have h : matchPrefixList (.cat .eps b) (c :: cs) =
        (nullable b || matchPrefixList (.alt (.cat .emp b) (rderiv b c)) cs) := by
      show ((true && nullable b) || _) = _
      rw [Bool.true_and]
      rfl
    rw [h, matchPrefixList_alt, matchPrefixList_catEmp, Bool.false_or]
    rfl

theorem matchPrefixList_star (r : Regex) : ∀ cs : List Char,
    matchPrefixList (.star r) cs = true
  | [] => rfl
  | _ :: _ => rfl

theorem matchPrefixList_litThen : ∀ (p : List Char) (r : Regex) (cs : List Char),
    matchPrefixList (litThen p r) cs = true ↔
      ∃ cs2, cs = p ++ cs2 ∧ matchPrefixList r cs2 = true
  | [], r, cs => by simp [litThen]
  | c :: p, r, [] => by
    constructor
    · intro h
      exact absurd h (by simp [matchPrefixList, litThen, nullable])
    · rintro ⟨cs2, h, -⟩
      exact absurd h (by simp)
  | c :: p, r, x :: cs => by
    have hnull : nullable (litThen (c :: p) r) = false := rfl
    by_cases hx : x = c
    · subst hx
      have h : matchPrefixList (litThen (x :: p) r) (x :: cs) =
          matchPrefixList (.cat .eps (litThen p r)) cs := by
        show (false || matchPrefixList
            (.cat (if x = x then .eps else .emp) (litThen p r)) cs) = _
        rw [Bool.false_or, if_pos rfl]
      rw [h, matchPrefixList_catEps, matchPrefixList_litThen p r cs]
      constructor
      · rintro ⟨cs2, rfl, hm⟩
        exact ⟨cs2, rfl, hm⟩
      · rintro ⟨cs2, hcs, hm⟩
        simp only [List.cons_append, List.cons.injEq] at hcs
        exact ⟨cs2, hcs.2, hm⟩
    · have h : matchPrefixList (litThen (c :: p) r) (x :: cs) =
          matchPrefixList (.cat .emp (litThen p r)) cs := by
        show (false || matchPrefixList
            (.cat (if x = c then .eps else .emp) (litThen p r)) cs) = _
        rw [Bool.false_or, if_neg hx]
      rw [h, matchPrefixList_catEmp]
      constructor
      · intro hf
        exact absurd hf (by simp)
      · rintro ⟨cs2, hcs, -⟩
        simp only [List.cons_append, List.cons.injEq] at hcs
        exact absurd hcs.1 hx

theorem matchPrefixList_plusAny : ∀ cs : List Char,
    matchPrefixList (Regex.plus .anyChar) cs = true ↔
      ∃ c cs1, cs = c :: cs1 ∧ c ≠ '\n'
  | [] => by
    constructor
    · intro h
      exact absurd h (by simp [Regex.plus, matchPrefixList, nullable])
    · rintro ⟨c, cs1, h, -⟩
      exact absurd h (by simp)
  | x :: cs => by
    by_cases hx : x = '\n'
    · subst hx
      have h : matchPrefixList (Regex.plus .anyChar) ('\n' :: cs) =
          matchPrefixList (.cat .emp (.star .anyChar)) cs := by
        show (false || matchPrefixList
            (.cat (if ('\n' : Char) = '\n' then .emp else .eps) (.star .anyChar)) cs) = _
        rw [Bool.false_or, if_pos rfl]
      rw [h, matchPrefixList_catEmp]
      constructor
      · intro hf
        exact absurd hf (by simp)
      · rintro ⟨c, cs1, hcs, hne⟩
        simp only [List.cons.injEq] at hcs
        exact absurd hcs.1.symm hne
    · have h : matchPrefixList (Regex.plus .anyChar) (x :: cs) =
          matchPrefixList (.cat .eps (.star .anyChar)) cs := by
        show (false || matchPrefixList
            (.cat (if x = '\n' then .emp else .eps) (.star .anyChar)) cs) = _
        rw [Bool.false_or, if_neg hx]
      rw [h, matchPrefixList_catEps, matchPrefixList_star]
      simp [hx]

theorem matchList_wholeLit (w cs : List Char) :
    matchList (litThen w .eps) cs = true ↔ cs = w := by
  rw [matchList_litThen]
  constructor
  · rintro ⟨cs2, h1, h2⟩
    rw [matchList_eps] at h2
    subst h2
    rw [List.append_nil] at h1
    exact h1
  · rintro rfl
    exact ⟨[], (List.append_nil _).symm, rfl⟩

theorem matchPrefixList_litThenPlusAny (p cs : List Char) :
    matchPrefixList (litThen p (Regex.plus .anyChar)) cs = true ↔
      ∃ c cs1, cs = p ++ c :: cs1 ∧ c ≠ '\n' := by
  rw [matchPrefixList_litThen]
  constructor
  · rintro ⟨cs2, hcs, hm⟩
    rw [matchPrefixList_plusAny] at hm
    obtain ⟨c, cs1, rfl, hne⟩ := hm
    exact ⟨c, cs1, hcs, hne⟩
  · rintro ⟨c, cs1, hcs, hne⟩
    exact ⟨c :: cs1, hcs, (matchPrefixList_plusAny _).2 ⟨c, cs1, rfl, hne⟩⟩

theorem string_eq_iff_data (s w : String) : s = w ↔ s.data = w.data :=
  ⟨fun h => h ▸ rfl, String.ext⟩

theorem isContentTypeAllowed_eq_true_iff (s : String) :
    isContentTypeAllowed (some s) = true ↔
      s ∈ allowedExactContentTypes ∨
        ∃ c cs, s.data = "text/".data ++ c :: cs ∧ c ≠ '\n' := by
  have h : isContentTypeAllowed (some s) =
      (matchList (litThen "application/atom+xml".data .eps) s.data ||
       (matchList (litThen "application/json".data .eps) s.data ||
        (matchList (litThen "application/ld+json".data .eps) s.data ||
         (matchList (litThen "application/x-csh".data .eps) s.data ||
          (matchList (litThen "application/x-httpd-php".data .eps) s.data ||
           (matchList (litThen "application/x-sh".data .eps) s.data ||
            (matchList (litThen "application/xhtml+xml".data .eps) s.data ||
             (matchList (litThen "application/xml".data .eps) s.data ||
              (matchPrefixList (litThen "text/".data (Regex.plus .anyChar)) s.data ||
               false))))))))) := rfl
  rw [h]
  simp only [Bool.or_false, Bool.or_eq_true, matchList_wholeLit,
    matchPrefixList_litThenPlusAny, allowedExactContentTypes, List.mem_cons,
    List.not_mem_nil, or_false, string_eq_iff_data]
  tauto

theorem dataSourceObjectReadTags_calls (env : ObjectReadEnv) (st : DSState) :
    ((dataSourceObjectReadTags env st).1).calls = st.calls ++ ["GetObjectTagging"] := by
  unfold dataSourceObjectReadTags
  rcases h : ObjectListTagsV1 env.objectTaggingResult with ⟨tags, err⟩
  cases err <;> simp [DSState.addCall, DSState.setAttr]

theorem dataSourceObjectReadTags_id (env : ObjectReadEnv) (st : DSState) :
    ((dataSourceObjectReadTags env st).1).id = st.id := by
  unfold dataSourceObjectReadTags
  rcases h : ObjectListTagsV1 env.objectTaggingResult with ⟨tags, err⟩
  cases err <;> simp [DSState.addCall, DSState.setAttr]

theorem dataSourceObjectReadTags_attrs (env : ObjectReadEnv) (st : DSState) :
    ∃ rest, ((dataSourceObjectReadTags env st).1).attrs = st.attrs ++ rest := by
  unfold dataSourceObjectReadTags
  rcases h : ObjectListTagsV1 env.objectTaggingResult with ⟨tags, err⟩
  cases err
  · exact ⟨[("tags", .mapV (applyIgnoreConfig env.ignoreTagKeys tags))],
      by simp [DSState.addCall, DSState.setAttr]⟩
  · exact ⟨[], by simp [DSState.addCall]⟩

theorem lookup_append_some {α β : Type} [BEq α] (k : α) (v : β) :
    ∀ (l1 l2 : List (α × β)), List.lookup k l1 = some v →
      List.lookup k (l1 ++ l2) = some v
  | [], _, h => by simp [List.lookup] at h
  | (a, b) :: t, l2, h => by
    cases hka : k == a <;>
      simp only [List.lookup, hka, List.cons_append] at h ⊢
    · exact lookup_append_some k v t l2 h
    · exact h

/-- Claim C1, counterexample: the workforce_vpc_config round trip does not
reproduce the input field-for-field with client_secret as the single
exception — the computed `vpc_endpoint_id` is taken from the API response
(here: a response that omits it), not from the input, so an input carrying
`vpc_endpoint_id = "vpce-1"` is not reproduced. -/
theorem claim_C1_counterexample :
    flattenWorkforceVPCConfig
      ((expandWorkforceVPCConfig
          [some { security_group_ids := ["sg-1"],
                  subnets := ["subnet-1"],
                  vpc_endpoint_id := "vpce-1",
                  vpc_id := "vpc-1" }]).map
        (vpcResponseOfRequest · none)) ≠
      [{ security_group_ids := ["sg-1"],
         subnets := ["subnet-1"],
         vpc_endpoint_id := "vpce-1",
         vpc_id := "vpc-1" }] := by
  decide

/-- Claim C1 (amended): for every one-element attribute input, flattening
the result of expanding it reproduces the input field-for-field, with two
exceptions: the write-only `oidc_config` `client_secret` is taken from the
prior-state value passed as the flattener's second argument, and the
computed `workforce_vpc_config` `vpc_endpoint_id` is taken from the API
response (the AWS-assigned endpoint id), not from the input.  The
cognito_config and source_ip_config pairs round-trip exactly; the OIDC pair
round-trips exactly when the prior-state secret is the input's secret. -/
theorem claim_C1_expand_flatten_roundtrip :
    (∀ m : CognitoMap,
      flattenWorkforceCognitoConfig (expandWorkforceCognitoConfig [some m]) = [m]) ∧
    (∀ m : SourceIpMap,
      flattenWorkforceSourceIPConfig (expandWorkforceSourceIPConfig [some m]) = [m]) ∧
    (∀ m : OidcMap,
      flattenWorkforceOIDCConfig
        ((expandWorkforceOIDCConfig [some m]).map oidcResponseOfRequest)
        m.client_secret = [m]) ∧
    (∀ (m : VpcMap) (endpointId : Option String),
      flattenWorkforceVPCConfig
        ((expandWorkforceVPCConfig [some m]).map (vpcResponseOfRequest · endpointId)) =
      [{ m with vpc_endpoint_id := stringValue endpointId }]) :=
  ⟨fun _ => rfl, fun _ => rfl, fun _ => rfl, fun _ _ => rfl⟩

/-- Claim C10: on an empty list or a list with a nil first element, the
cognito/OIDC/source-IP expanders return nil (the block is omitted from the
request), while the VPC expander returns a non-nil zero
`WorkforceVpcConfigRequest`. -/
theorem claim_C10_expand_empty :
    (expandWorkforceCognitoConfig [] = none) ∧
    (∀ rest, expandWorkforceCognitoConfig (none :: rest) = none) ∧
    (expandWorkforceOIDCConfig [] = none) ∧
    (∀ rest, expandWorkforceOIDCConfig (none :: rest) = none) ∧
    (expandWorkforceSourceIPConfig [] = none) ∧
    (∀ rest, expandWorkforceSourceIPConfig (none :: rest) = none) ∧
    (expandWorkforceVPCConfig [] = some emptyWorkforceVpcConfigRequest) ∧
    (∀ rest, expandWorkforceVPCConfig (none :: rest) =
      some emptyWorkforceVpcConfigRequest) :=
  ⟨rfl, fun _ => rfl, rfl, fun _ => rfl, rfl, fun _ => rfl, rfl, fun _ => rfl⟩

/-- Claim C3: `resourceWorkforceDelete` succeeds with no diagnostics when
`DeleteWorkforce` fails with a `ValidationException` whose message contains
"No workforce"; any other `DeleteWorkforce` error is returned as a
diagnostic. -/
theorem claim_C3_delete_absent_workforce :
    (∀ env : WorkforceDeleteEnv,
      errMessageContains env.deleteResult "ValidationException" "No workforce" = true →
      resourceWorkforceDelete env = []) ∧
    (∀ (env : WorkforceDeleteEnv) (e : ApiError),
      env.deleteResult = some e →
      errMessageContains env.deleteResult "ValidationException" "No workforce" = false →
      resourceWorkforceDelete env =
        [⟨"deleting SageMaker Workforce (" ++ env.id ++ "): " ++ e.message⟩]) := by
  constructor
  · intro env h
    simp [resourceWorkforceDelete, h]
  · intro env e he h
    rw [he] at h
    simp [resourceWorkforceDelete, he, h]

/-- Claim C3, witness at concrete inputs. -/
theorem claim_C3_witness :
    resourceWorkforceDelete
        ⟨"wf", some ⟨"ValidationException", "No workforce wf found"⟩, none⟩ = [] ∧
      resourceWorkforceDelete
        ⟨"wf", some ⟨"ThrottlingException", "rate exceeded"⟩, none⟩ =
        [⟨"deleting SageMaker Workforce (" ++ "wf" ++ "): " ++ "rate exceeded"⟩] :=
  ⟨claim_C3_delete_absent_workforce.1
      ⟨"wf", some ⟨"ValidationException", "No workforce wf found"⟩, none⟩ (by decide),
   claim_C3_delete_absent_workforce.2
      ⟨"wf", some ⟨"ThrottlingException", "rate exceeded"⟩, none⟩
      ⟨"ThrottlingException", "rate exceeded"⟩ rfl (by decide)⟩

/-- Claim C4: a `NoSuchTagSet`/`NoSuchTagSetError` failure of the
underlying tagging read makes `BucketListTags`, `ObjectListTags` and
`ObjectListTagsV1` return a successful empty tag mapping; any other
failure returns the empty mapping together with that error. -/
theorem claim_C4_no_such_tag_set :
    (∀ e : ApiError, e.code = "NoSuchTagSet" ∨ e.code = "NoSuchTagSetError" →
      BucketListTags (.error e) = ([], none) ∧
      ObjectListTags (.error e) = ([], none) ∧
      ObjectListTagsV1 (.error e) = ([], none)) ∧
    (∀ e : ApiError, e.code ≠ "NoSuchTagSet" → e.code ≠ "NoSuchTagSetError" →
      BucketListTags (.error e) = ([], some e) ∧
      ObjectListTags (.error e) = ([], some e) ∧
      ObjectListTagsV1 (.error e) = ([], some e)) := by
  constructor
  · intro e h
    rcases h with h | h <;>
      exact ⟨by simp [BucketListTags, errCodeNoSuchTagSet, errCodeNoSuchTagSetError, h],
             by simp [ObjectListTags, errCodeNoSuchTagSet, errCodeNoSuchTagSetError, h],
             by simp [ObjectListTagsV1, errCodeNoSuchTagSet, errCodeNoSuchTagSetError, h]⟩
  · intro e h1 h2
    exact ⟨by simp [BucketListTags, errCodeNoSuchTagSet, errCodeNoSuchTagSetError, h1, h2],
           by simp [ObjectListTags, errCodeNoSuchTagSet, errCodeNoSuchTagSetError, h1, h2],
           by simp [ObjectListTagsV1, errCodeNoSuchTagSet, errCodeNoSuchTagSetError, h1, h2]⟩

/-- Claim C4, witness at concrete inputs. -/
theorem claim_C4_witness :
    BucketListTags (.error ⟨"NoSuchTagSet", "the TagSet does not exist"⟩) = ([], none) ∧
      ObjectListTags (.error ⟨"AccessDenied", "denied"⟩) =
        ([], some ⟨"AccessDenied", "denied"⟩) :=
  ⟨(claim_C4_no_such_tag_set.1 ⟨"NoSuchTagSet", "the TagSet does not exist"⟩
      (Or.inl rfl)).1,
   (claim_C4_no_such_tag_set.2 ⟨"AccessDenied", "denied"⟩ (by decide) (by decide)).2.1⟩

theorem mergeTags_eq_nil_iff (a b : Tags) : mergeTags a b = [] ↔ a = [] ∧ b = [] := by
  unfold mergeTags
  constructor
  · intro h
    rcases List.append_eq_nil.mp h with ⟨hf, hb⟩
    subst hb
    refine ⟨?_, rfl⟩
    have hfull : a.filter (fun p => ! containsKey [] p.1) = a := by
      simp [containsKey]
    rw [hfull] at hf
    exact hf
  · rintro ⟨rfl, rfl⟩
    rfl

/-- Claim C5: for every combination of resource tags, old tags and new
tags, `BucketUpdateTags` and `ObjectUpdateTags` issue at most one mutating
call: one Put when the merged new-plus-ignored set is non-empty, one Delete
when the new and ignored sets are empty but the old set is not, and no
mutating call otherwise. -/
theorem claim_C5_update_tags_single_call :
    ∀ allTags oldTags newTags : Tags,
      (∀ r : Except ApiError Tags,
        (BucketUpdateTags r oldTags newTags).1.length ≤ 1 ∧
        (ObjectUpdateTags r oldTags newTags).1.length ≤ 1) ∧
      (mergeTags newTags (ignoreTags (ignoreTags allTags oldTags) newTags) ≠ [] →
        BucketUpdateTags (.ok allTags) oldTags newTags =
          ([.putTags (mergeTags newTags
              (ignoreTags (ignoreTags allTags oldTags) newTags))], none) ∧
        ObjectUpdateTags (.ok allTags) oldTags newTags =
          ([.putTags (mergeTags newTags
              (ignoreTags (ignoreTags allTags oldTags) newTags))], none)) ∧
      (newTags = [] → ignoreTags (ignoreTags allTags oldTags) newTags = [] →
        oldTags ≠ [] →
        BucketUpdateTags (.ok allTags) oldTags newTags = ([.deleteTags], none) ∧
        ObjectUpdateTags (.ok allTags) oldTags newTags = ([.deleteTags], none)) ∧
      (newTags = [] → ignoreTags (ignoreTags allTags oldTags) newTags = [] →
        oldTags = [] →
        BucketUpdateTags (.ok allTags) oldTags newTags = ([], none) ∧
        ObjectUpdateTags (.ok allTags) oldTags newTags = ([], none)) := by
  intro allTags oldTags newTags
  refine ⟨?_, ?_, ?_, ?_⟩
  · intro r
    constructor
    · unfold BucketUpdateTags
      rcases hb : BucketListTags r with ⟨tags, err⟩
      cases err
      · dsimp only
        split_ifs <;> simp
      · simp
    · unfold ObjectUpdateTags
      rcases hb : ObjectListTagsV1 r with ⟨tags, err⟩
      cases err
      · dsimp only
        split_ifs <;> simp
      · simp
  · intro hm
    have h0 : ¬(newTags = [] ∧ ignoreTags (ignoreTags allTags oldTags) newTags = []) :=
      fun hp => hm ((mergeTags_eq_nil_iff _ _).2 hp)
    have hpos : 0 < newTags.length +
        (ignoreTags (ignoreTags allTags oldTags) newTags).length := by
      rcases Nat.eq_zero_or_pos (newTags.length +
        (ignoreTags (ignoreTags allTags oldTags) newTags).length) with hz | hp
    
      · exact absurd ⟨List.length_eq_zero.mp (Nat.add_eq_zero.mp hz).1,
          List.length_eq_zero.mp (Nat.add_eq_zero.mp hz).2⟩ h0
      · exact hp
    constructor
    · unfold BucketUpdateTags
      dsimp only [BucketListTags]
      rw [if_pos hpos]
    · unfold ObjectUpdateTags
      dsimp only [ObjectListTagsV1]
      rw [if_pos hpos]
  · intro hn hi ho
    have hneg : ¬(0 < newTags.length +
        (ignoreTags (ignoreTags allTags oldTags) newTags).length) := by
      rw [hi, hn]
      simp
    have hdel : 0 < oldTags.length ∧
        (ignoreTags (ignoreTags allTags oldTags) newTags).length = 0 :=
      ⟨List.length_pos.mpr ho, by rw [hi]; rfl⟩
    constructor
    · unfold BucketUpdateTags
      dsimp only [BucketListTags]
      rw [if_neg hneg, if_pos hdel]
    · unfold ObjectUpdateTags
      dsimp only [ObjectListTagsV1]
      rw [if_neg hneg, if_pos hdel]
  · intro hn hi ho
    have hneg : ¬(0 < newTags.length +
        (ignoreTags (ignoreTags allTags oldTags) newTags).length) := by
      rw [hi, hn]
      simp
    have hneg2 : ¬(0 < oldTags.length ∧
        (ignoreTags (ignoreTags allTags oldTags) newTags).length = 0) := by
      rw [ho]
      simp
    constructor
    · unfold BucketUpdateTags
      dsimp only [BucketListTags]
      rw [if_neg hneg, if_neg hneg2]
    · unfold ObjectUpdateTags
      dsimp only [ObjectListTagsV1]
      rw [if_neg hneg, if_neg hneg2]

/-- Claim C5, witness at concrete inputs: one Put when something must be
written, one Delete when only the old set is non-empty, nothing otherwise. -/
theorem claim_C5_witness :
    BucketUpdateTags (.ok [("k", "v"), ("aws:tag", "x")]) [("k", "v")] [] =
        ([.putTags [("aws:tag", "x")]], none) ∧
      BucketUpdateTags (.ok [("k", "v")]) [("k", "v")] [] = ([.deleteTags], none) ∧
      ObjectUpdateTags (.ok []) [] [] = ([], none) :=
  ⟨((claim_C5_update_tags_single_call [("k", "v"), ("aws:tag", "x")] [("k", "v")] []).2.1
      (by decide)).1,
   ((claim_C5_update_tags_single_call [("k", "v")] [("k", "v")] []).2.2.1
      rfl (by decide) (by decide)).1,
   ((claim_C5_update_tags_single_call [] [] []).2.2.2 rfl rfl rfl).2⟩

theorem dataSourceObjectRead_ok (env : ObjectReadEnv) (out : HeadObjectOutput)
    (h1 : env.headResult = .ok out) (h2 : boolValue out.deleteMarker = false) :
    (dataSourceObjectRead env).1.id = some (objectUniqueId env) ∧
    (∃ rest, (dataSourceObjectRead env).1.attrs = headObjectAttrs out ++ rest) ∧
    (dataSourceObjectRead env).1.calls.contains "GetObject" =
      isContentTypeAllowed out.contentType := by
  unfold dataSourceObjectRead
  rw [h1]
  dsimp only
  rw [if_neg (by rw [h2]; exact Bool.false_ne_true)]
  cases hct : isContentTypeAllowed out.contentType with
  | false =>
    rw [if_neg Bool.false_ne_true]
    refine ⟨?_, ?_, ?_⟩
    · rw [dataSourceObjectReadTags_id]
    · obtain ⟨rest, hr⟩ := dataSourceObjectReadTags_attrs env _
      exact ⟨rest, by rw [hr]⟩
    · rw [dataSourceObjectReadTags_calls]
      show (["HeadObject"] ++ ["GetObjectTagging"]).contains "GetObject" = false
      decide
  | true =>
    rw [if_pos rfl]
    cases hgo : env.getObjectResult with
    | error e =>
      refine ⟨rfl, ⟨[], by simp [DSState.addCall]⟩, ?_⟩
      show (["HeadObject"] ++ ["GetObject"]).contains "GetObject" = true
      decide
    | ok body =>
      refine ⟨?_, ?_, ?_⟩
      · rw [dataSourceObjectReadTags_id]
        rfl
      · obtain ⟨rest, hr⟩ := dataSourceObjectReadTags_attrs env _
        rw [hr]
        exact ⟨[("body", .str body)] ++ rest, by simp [DSState.addCall, DSState.setAttr]⟩
      · rw [dataSourceObjectReadTags_calls]
        show ((["HeadObject"] ++ ["GetObject"]) ++ ["GetObjectTagging"]).contains
          "GetObject" = true
        decide

/-- Claim C2, counterexample: the string `"text/\n"` has prefix `text/`
followed by one more character (its length is 6), yet
`isContentTypeAllowed` rejects it, because RE2 `.` in `^text/.+` does not
match a newline. -/
theorem claim_C2_counterexample :
    (∃ c cs, "text/\n".data = "text/".data ++ c :: cs) ∧
      isContentTypeAllowed (some "text/\n") = false :=
  ⟨⟨'\n', [], by decide⟩, by decide⟩

/-- Claim C2 (amended): `isContentTypeAllowed` returns true exactly for
the eight documented anchored MIME strings, or for any string whose prefix
is `text/` followed by at least one non-newline character (RE2 `.` does
not match `\n`); it returns false for every other string.  And on a read
whose head response is not a delete marker, `dataSourceObjectRead` issues
the `GetObject` body fetch exactly when `isContentTypeAllowed` holds of
the response's content type. -/
theorem claim_C2_content_type_allowlist :
    (∀ s : String, isContentTypeAllowed (some s) = true ↔
      (s ∈ allowedExactContentTypes ∨
        ∃ c cs, s.data = "text/".data ++ c :: cs ∧ c ≠ '\n')) ∧
    (∀ (env : ObjectReadEnv) (out : HeadObjectOutput),
      env.headResult = .ok out → boolValue out.deleteMarker = false →
      (dataSourceObjectRead env).1.calls.contains "GetObject" =
        isContentTypeAllowed out.contentType) :=
  ⟨isContentTypeAllowed_eq_true_iff,
   fun env out h1 h2 => (dataSourceObjectRead_ok env out h1 h2).2.2⟩

/-- Claim C2, witness at concrete inputs: `image/png` is excluded, and a
read of a `text/plain` object fetches the body. -/
theorem claim_C2_witness :
    ¬("image/png" ∈ allowedExactContentTypes ∨
        ∃ c cs, "image/png".data = "text/".data ++ c :: cs ∧ c ≠ '\n') ∧
      (dataSourceObjectRead
        ⟨"b", "k", "", "",
         .ok { emptyHeadOutput with contentType := some "text/plain" },
         .ok "hello", .ok [], []⟩).1.calls.contains "GetObject" =
        isContentTypeAllowed (some "text/plain") :=
  ⟨fun h => by
      have hfalse := (claim_C2_content_type_allowlist.1 "image/png").2 h
      exact absurd hfalse (by decide),
   claim_C2_content_type_allowlist.2
      ⟨"b", "k", "", "",
       .ok { emptyHeadOutput with contentType := some "text/plain" },
       .ok "hello", .ok [], []⟩
      { emptyHeadOutput with contentType := some "text/plain" } rfl rfl⟩

/-- Claim C6: the Workforce resource id set by a successful create is
exactly the workforce_name; the S3 object data source id is
`bucket + "/" + key`, or `bucket + "/" + key + "@" + version_id` when a
version_id is configured. -/
theorem claim_C6_identifiers :
    (∀ env : WorkforceCreateEnv, env.createResult = none →
      (resourceWorkforceCreate env).2.1 = some env.workforceName) ∧
    (∀ (env : ObjectReadEnv) (out : HeadObjectOutput),
      env.headResult = .ok out → boolValue out.deleteMarker = false →
      (dataSourceObjectRead env).1.id =
        some (if env.versionIdAttr = "" then env.bucket ++ "/" ++ env.key
              else env.bucket ++ "/" ++ env.key ++ "@" ++ env.versionIdAttr)) := by
  constructor
  · intro env h
    unfold resourceWorkforceCreate
    rw [h]
    cases env.waitResult <;> rfl
  · intro env out h1 h2
    rw [(dataSourceObjectRead_ok env out h1 h2).1]
    unfold objectUniqueId
    by_cases hv : env.versionIdAttr = ""
    · simp [hv]
    · simp [hv]

/-- Claim C6, witness at concrete inputs. -/
theorem claim_C6_witness :
    (resourceWorkforceCreate ⟨"wf1", [], [], [], [], none, none, []⟩).2.1 =
        some "wf1" ∧
      (dataSourceObjectRead
        ⟨"b", "k", "", "v1",
         .ok { emptyHeadOutput with contentType := some "text/plain" },
         .ok "hello", .ok [], []⟩).1.id = some "b/k@v1" :=
  ⟨claim_C6_identifiers.1 ⟨"wf1", [], [], [], [], none, none, []⟩ rfl,
   by
    have h := claim_C6_identifiers.2
      ⟨"b", "k", "", "v1",
       .ok { emptyHeadOutput with contentType := some "text/plain" },
       .ok "hello", .ok [], []⟩
      { emptyHeadOutput with contentType := some "text/plain" } rfl rfl
    simpa using h⟩

/-- Claim C7: `cognito_config` and `oidc_config` each declare the
exactly-one-of group over the pair, and the CRUD layer adds no validation
of its own: the create path's diagnostics depend only on the AWS call
outcomes, not on which auth-config blocks are present. -/
theorem claim_C7_exactly_one_of :
    ((List.lookup "cognito_config" workforceSchema).map AttrSchema.exactlyOneOf =
      some ["oidc_config", "cognito_config"]) ∧
    ((List.lookup "oidc_config" workforceSchema).map AttrSchema.exactlyOneOf =
      some ["oidc_config", "cognito_config"]) ∧
    (∀ env1 env2 : WorkforceCreateEnv,
      env1.workforceName = env2.workforceName →
      env1.createResult = env2.createResult →
      env1.waitResult = env2.waitResult →
      env1.readDiags = env2.readDiags →
      (resourceWorkforceCreate env1).2.2 = (resourceWorkforceCreate env2).2.2) := by
  refine ⟨rfl, rfl, ?_⟩
  intro env1 env2 hn hc hw hr
  unfold resourceWorkforceCreate
  rw [hn, hc, hw, hr]
  cases env2.createResult with
  | some e => rfl
  | none => cases env2.waitResult <;> rfl

/-- Claim C7, witness: a cognito-only and an oidc-only configuration give
the same (empty) create diagnostics. -/
theorem claim_C7_witness :
    (resourceWorkforceCreate
        ⟨"wf", [some ⟨"cid", "pool"⟩], [], [], [], none, none, []⟩).2.2 =
      (resourceWorkforceCreate
        ⟨"wf", [], [some ⟨"a", "c", "s", "i", "j", "l", "t", "u"⟩], [], [],
         none, none, []⟩).2.2 :=
  claim_C7_exactly_one_of.2.2
    ⟨"wf", [some ⟨"cid", "pool"⟩], [], [], [], none, none, []⟩
    ⟨"wf", [], [some ⟨"a", "c", "s", "i", "j", "l", "t", "u"⟩], [], [],
     none, none, []⟩
    rfl rfl rfl rfl

/-- Claim C8: when the head response carries DeleteMarker = true, the read
returns an error diagnostic and sets neither the resource id nor any
attribute. -/
theorem claim_C8_delete_marker :
    ∀ (env : ObjectReadEnv) (out : HeadObjectOutput),
      env.headResult = .ok out → out.deleteMarker = some true →
      (dataSourceObjectRead env).1.id = none ∧
      (dataSourceObjectRead env).1.attrs = [] ∧
      (dataSourceObjectRead env).2 ≠ [] := by
  intro env out h1 h2
  unfold dataSourceObjectRead
  rw [h1]
  dsimp only
  rw [if_pos (show boolValue out.deleteMarker = true by rw [h2]; rfl)]
  exact ⟨rfl, rfl, by simp⟩

/-- Claim C8, witness at a concrete input. -/
theorem claim_C8_witness :
    (dataSourceObjectRead
        ⟨"b", "k", "", "",
         .ok { emptyHeadOutput with deleteMarker := some true },
         .ok "hello", .ok [], []⟩).1.id = none ∧
      (dataSourceObjectRead
        ⟨"b", "k", "", "",
         .ok { emptyHeadOutput with deleteMarker := some true },
         .ok "hello", .ok [], []⟩).1.attrs = [] ∧
      (dataSourceObjectRead
        ⟨"b", "k", "", "",
         .ok { emptyHeadOutput with deleteMarker := some true },
         .ok "hello", .ok [], []⟩).2 ≠ [] :=
  claim_C8_delete_marker
    ⟨"b", "k", "", "",
     .ok { emptyHeadOutput with deleteMarker := some true },
     .ok "hello", .ok [], []⟩
    { emptyHeadOutput with deleteMarker := some true } rfl rfl

/-- Claim C9, counterexample: a head response carrying an explicitly empty
`StorageClass` string (`some ""`) is stored as the empty string by a fully
successful read, so the stored storage_class is not "never empty". -/
theorem claim_C9_counterexample :
    lookupAttr
        (dataSourceObjectRead
          ⟨"b", "k", "", "",
           .ok { emptyHeadOutput with
                 contentType := some "text/plain", storageClass := some "" },
           .ok "hello", .ok [], []⟩).1 "storage_class" = some (.str "") ∧
      (dataSourceObjectRead
          ⟨"b", "k", "", "",
           .ok { emptyHeadOutput with
                 contentType := some "text/plain", storageClass := some "" },
           .ok "hello", .ok [], []⟩).2 = [] :=
  ⟨by decide, by decide⟩

/-- Claim C9 (amended): on a read that passes the delete-marker check, the
stored storage_class is the literal "STANDARD" when the response's
StorageClass is absent and the response's value otherwise; consequently it
is non-empty provided the response's StorageClass, when present, is
non-empty (an explicitly empty response value would be stored as-is). -/
theorem claim_C9_storage_class_default :
    ∀ (env : ObjectReadEnv) (out : HeadObjectOutput),
      env.headResult = .ok out → boolValue out.deleteMarker = false →
      lookupAttr (dataSourceObjectRead env).1 "storage_class" =
        some (.str (match out.storageClass with
                    | none => "STANDARD"
                    | some sc => sc)) ∧
      (out.storageClass ≠ some "" →
        ∀ s, lookupAttr (dataSourceObjectRead env).1 "storage_class" =
            some (.str s) → s ≠ "") := by
  intro env out h1 h2
  obtain ⟨rest, hattrs⟩ := (dataSourceObjectRead_ok env out h1 h2).2.1
  have hbase : List.lookup "storage_class" (headObjectAttrs out) =
      some (.str (match out.storageClass with
                  | none => "STANDARD"
                  | some sc => sc)) := rfl
  have hlook : lookupAttr (dataSourceObjectRead env).1 "storage_class" =
      some (.str (match out.storageClass with
                  | none => "STANDARD"
                  | some sc => sc)) := by
    unfold lookupAttr
    rw [hattrs]
    exact lookup_append_some _ _ _ _ hbase
  refine ⟨hlook, ?_⟩
  intro hsc s hs
  rw [hlook] at hs
  cases hout : out.storageClass with
  | none =>
    rw [hout] at hs
    simp only [Option.some.injEq, AttrVal.str.injEq] at hs
    rw [← hs]
    decide
  | some sc =>
    rw [hout] at hs
    simp only [Option.some.injEq, AttrVal.str.injEq] at hs
    rw [← hs]
    intro hempty
    exact hsc (by rw [hout, hempty])

/-- Claim C9, witness: an absent StorageClass is stored as "STANDARD". -/
theorem claim_C9_witness :
    lookupAttr
        (dataSourceObjectRead
          ⟨"b", "k", "", "", .ok emptyHeadOutput, .ok "hello", .ok [], []⟩).1
        "storage_class" = some (.str "STANDARD") :=
  (claim_C9_storage_class_default
    ⟨"b", "k", "", "", .ok emptyHeadOutput, .ok "hello", .ok [], []⟩
    emptyHeadOutput rfl rfl).1
